import Mathlib

/-!
Verification of the Landing-Page strategy workbench (src/app.py).

The file shallowly embeds the parts of the program that the claims are
about: the docx text extractor, the markdown-to-document renderer, the
per-file ingestion routine with its readiness-poll loop, the generation
request builder, and the three-stage pipeline state held in session state.
Text is modelled as `List Char`; the external backend (upload, get_file,
the docx parser) is an explicit parameter whose `Except` errors model
raised exceptions.
-/

namespace LP

/-- Text (Python `str` and file bytes) modelled as a list of characters. -/
abbrev Str := List Char

/-- Convenience: the character list of a Lean string literal. -/
def S (s : String) : Str := s.data

/-- The characters stripped by Python `str.strip()` (the whitespace that
occurs in this program's data). -/
def isWS (c : Char) : Bool :=
  c == ' ' || c == '\t' || c == '\n' || c == '\r'

/-- Strip leading whitespace. -/
def trimLeft (s : Str) : Str := s.dropWhile isWS

/-- Strip trailing whitespace. -/
def trimRight (s : Str) : Str := (s.reverse.dropWhile isWS).reverse

/-- Python `str.strip()`: strip whitespace from both ends. -/
def trim (s : Str) : Str := trimRight (trimLeft s)

/-- `extract_text_from_docx` (src/app.py:32), applied to the result of
parsing the file as a structured document (`some paragraphs` when the
bytes are a valid document, `none` when `Document(...)` raises): each
paragraph's text is stripped, empty paragraphs are discarded, and the
survivors are joined with a blank-line separator. A parse failure is
reported with an error notice and yields the empty string. -/
def extract_text_from_docx (parsed : Option (List Str)) : Str :=
  match parsed with
  | some paras => List.intercalate (S "\n\n") ((paras.map trim).filter (fun p => p ≠ []))
  | none => []

/-- A block of the exported Word document. -/
inductive Block where
  | heading (level : Nat) (text : Str)
  | bullet (text : Str)
  | plain (text : Str)
deriving DecidableEq, Repr

/-- Python `str.replace(pat, "")` for a two-character pattern `[a, b]`:
removes non-overlapping occurrences left to right. -/
def removePair (a b : Char) : Str → Str
  | [] => []
  | [c] => [c]
  | c :: d :: rest =>
    if c = a ∧ d = b then removePair a b rest
    else c :: removePair a b (d :: rest)

/-- Python `str.split(sep)` for a one-character separator: the result always
has one more element than there are separators, so it is never empty. -/
def splitOn (sep : Char) : Str → List Str
  | [] => [[]]
  | c :: rest =>
    if c = sep then [] :: splitOn sep rest
    else
      match splitOn sep rest with
      | [] => [[c]]
      | l :: ls => (c :: l) :: ls

/-- One iteration of the loop in `create_docx_from_markdown` (src/app.py:50):
strip the line, skip it when blank, and otherwise classify it by its
`startswith` tests, in source order. -/
def classifyLine (line : Str) : Option Block :=
  let l := trim line
  if l = [] then none
  else if ['#', ' '].isPrefixOf l then some (Block.heading 1 (l.drop 2))
  else if ['#', '#', ' '].isPrefixOf l then some (Block.heading 2 (l.drop 3))
  else if ['#', '#', '#', ' '].isPrefixOf l then some (Block.heading 3 (l.drop 4))
  else if ['-', ' '].isPrefixOf l || ['*', ' '].isPrefixOf l then
    some (Block.bullet (l.drop 2))
  else some (Block.plain (removePair '_' '_' (removePair '*' '*' l)))

/-- `create_docx_from_markdown` (src/app.py:46): the block list of the
document built from the markdown text, line by line. -/
def create_docx_from_markdown (markdown_text : Str) : List Block :=
  (splitOn '\n' markdown_text).filterMap classifyLine

/-- Joins lines with the newline separator (the inverse construction used to
state that the renderer works line by line). -/
def joinLines : List Str → Str
  | [] => []
  | [x] => x
  | x :: y :: rest => x ++ '\n' :: joinLines (y :: rest)

/-- The readiness state names of a backend file object (`state.name`). -/
inductive FState where
  | processing
  | active
  | failed
deriving DecidableEq, Repr

/-- A backend file object: an identifier plus its readiness state;
`none` models an object whose `state` attribute is missing. -/
structure FileObj where
  id : Nat
  state : Option FState
deriving DecidableEq, Repr

/-- The external world as seen by one `process_uploaded_file` call: the
structured-document parser (`Document(...)`, `none` when the bytes are not a
valid document), the upload call taking (temp-file content, display name),
and the k-th `genai.get_file` readiness poll, k = 1, 2, ....  `Except String`
errors model raised exceptions. -/
structure Backend where
  parseDocx : Str → Option (List Str)
  upload : Str × Str → Except Str FileObj
  getFile : Nat → Except Str FileObj

/-- An uploaded file: declared name and raw bytes. -/
structure UploadedFile where
  name : Str
  content : Str
deriving DecidableEq, Repr

/-- `max_wait` (src/app.py:123): the 60-second ceiling of the poll loop. -/
def maxWait : Nat := 60

/-- `Path(name).suffix.lower()`: the lower-cased extension of the file name,
taken from its last dot; empty when there is no dot, when the dot is the
first character, or when the dot is last. -/
def fileSuffix (name : Str) : Str :=
  let ext := name.reverse.takeWhile (fun c => c ≠ '.')
  if ext.length + 1 ≤ name.length ∧ ext ≠ [] ∧ ext.length + 1 ≠ name.length then
    ('.' :: ext.reverse).map Char.toLower
  else []

/-- The observable outcome of one `process_uploaded_file` call. -/
structure IngestResult where
  /-- The Gemini file object returned to the caller, or `none`. -/
  result : Option FileObj
  /-- The upload calls made: (content written to the temp file, display name). -/
  uploads : List (Str × Str)
  /-- Number of `get_file` polls, each preceded by a one-second sleep. -/
  pollCalls : Nat
  /-- Temporary local files still existing when the call returns. -/
  tempsLeaked : Nat
  /-- Whether `extract_text_from_docx` showed its Word-read error notice. -/
  extractionFailed : Bool
  /-- Whether the per-file failure / timeout / exception notice was shown. -/
  errNotice : Bool
deriving DecidableEq, Repr

/-- The `while` loop of `process_uploaded_file` (src/app.py:125), with the
fuel argument kept equal to `maxWait - elapsed` (an upper bound on the
remaining iterations, so the fuel-exhausted branch coincides with the loop's
own exit): while the state is PROCESSING and fewer than `maxWait` seconds
have elapsed, sleep one second, count it, and re-read the remote state.
Returns the final file object with the elapsed seconds, or the exception
raised by a poll together with the seconds elapsed up to it. -/
def pollLoopFuel (env : Backend) : Nat → FileObj → Nat → Except (Str × Nat) (FileObj × Nat)
  | 0, f, elapsed => Except.ok (f, elapsed)
  | fuel + 1, f, elapsed =>
    if f.state = some FState.processing ∧ elapsed < maxWait then
      match env.getFile (elapsed + 1) with
      | Except.error e => Except.error (e, elapsed + 1)
      | Except.ok f2 => pollLoopFuel env fuel f2 (elapsed + 1)
    else Except.ok (f, elapsed)

/-- The poll loop entered with `elapsed` seconds already passed. -/
def pollLoop (env : Backend) (f : FileObj) (elapsed : Nat) :
    Except (Str × Nat) (FileObj × Nat) :=
  pollLoopFuel env (maxWait - elapsed) f elapsed

/-- The upload-and-poll phase of `process_uploaded_file` (src/app.py:118):
upload the temp-file content under the display name, poll a PROCESSING file
once per second up to `maxWait` seconds, and remove the temp file before
returning — except when upload or a poll raises (src/app.py:141), where only
the error notice is shown and the temp file is left behind.  `exFailed`
carries whether the docx extraction step before this phase had failed. -/
def ingest_prepared (env : Backend) (uploadContent displayName : Str)
    (exFailed : Bool) : IngestResult :=
  match env.upload (uploadContent, displayName) with
  | Except.error _ =>
    { result := none, uploads := [(uploadContent, displayName)], pollCalls := 0,
      tempsLeaked := 1, extractionFailed := exFailed, errNotice := true }
  | Except.ok f0 =>
    match pollLoop env f0 0 with
    | Except.error pe =>
      { result := none, uploads := [(uploadContent, displayName)], pollCalls := pe.2,
        tempsLeaked := 1, extractionFailed := exFailed, errNotice := true }
    | Except.ok (f1, elapsed) =>
      if f1.state = none ∨ f1.state = some FState.failed ∨ maxWait ≤ elapsed then
        { result := none, uploads := [(uploadContent, displayName)],
          pollCalls := elapsed, tempsLeaked := 0, extractionFailed := exFailed,
          errNotice := true }
      else
        { result := some f1, uploads := [(uploadContent, displayName)],
          pollCalls := elapsed, tempsLeaked := 0, extractionFailed := exFailed,
          errNotice := false }

/-- `process_uploaded_file` (src/app.py:88).  A temp file holding the raw
bytes is created; for a `.docx` name it is replaced by a `.txt` temp file
holding the extracted text (empty when extraction failed) under the derived
display name `name + ".txt"` (src/app.py:110); then the upload-and-poll
phase runs on the prepared content. -/
def process_uploaded_file (env : Backend) (f : UploadedFile) : IngestResult :=
  let suffix := fileSuffix f.name
  if suffix = S ".docx" then
    ingest_prepared env (extract_text_from_docx (env.parseDocx f.content))
      (f.name ++ S ".txt") (env.parseDocx f.content).isNone
  else
    ingest_prepared env f.content f.name false

/-- The per-stage ingestion loop (src/app.py:241): process each file in
order, collecting the successful Gemini file objects and skipping failures. -/
def ingest_batch (items : List (Backend × UploadedFile)) : List FileObj :=
  items.filterMap (fun it => (process_uploaded_file it.1 it.2).result)

/-- One element of the content list sent to the model. -/
inductive ContentPart where
  | text (s : Str)
  | file (f : FileObj)
deriving DecidableEq, Repr

/-- A generation call as `generate_content_stream` issues it. -/
structure GenRequest where
  model : Str
  contents : List ContentPart
  temperature : ℚ
deriving DecidableEq

/-- The request built by `generate_content_stream` (src/app.py:145):
`content_parts = [prompt]`, extended with the files when there are any, and
a fixed sampling temperature of 0.7. -/
def generate_request (model_name : Str) (prompt : Str)
    (files : Option (List FileObj)) : GenRequest :=
  let fs := match files with | none => [] | some l => l
  { model := model_name
    contents :=
      if fs = [] then [ContentPart.text prompt]
      else ContentPart.text prompt :: fs.map ContentPart.file
    temperature := 7 / 10 }

/-- `generate_content_stream` (src/app.py:145): send the built request; a
raised exception is reported and yields `None`, success yields the text. -/
def generate_content_stream (call : GenRequest → Except Str Str)
    (model_name : Str) (prompt : Str) (files : Option (List FileObj)) : Option Str :=
  match call (generate_request model_name prompt files) with
  | Except.ok t => some t
  | Except.error _ => none

/-- The three stage results held in `st.session_state` (src/app.py:172);
the empty string means the stage has not produced a result. -/
structure PipelineState where
  step1_result : Str
  step2_result : Str
  step3_result : Str
deriving DecidableEq, Repr

/-- The initial session state: all three results empty. -/
def initialState : PipelineState :=
  { step1_result := [], step2_result := [], step3_result := [] }

/-- The Step-2 mode selector (src/app.py:304). -/
inductive Stage2Mode where
  | noPage
  | unclear
  | normal
deriving DecidableEq, Repr

/-- The Step-3 mode selector (src/app.py:480). -/
inductive Stage3Mode where
  | fullRebuild
  | partOptimization
deriving DecidableEq, Repr

/-- What a stage run displays: the upstream-precondition warning, the
success banner, or nothing. -/
inductive StageNotice where
  | blocked
  | success
  | silent
deriving DecidableEq, Repr

/-- The Step-1 button handler (src/app.py:274): store the generation outcome
and report success only when it is a non-empty text (`if result:`). -/
def runStage1 (s : PipelineState) (outcome : Option Str) : PipelineState × StageNotice :=
  match outcome with
  | some r =>
    if r ≠ [] then ({ s with step1_result := r }, StageNotice.success)
    else (s, StageNotice.silent)
  | none => (s, StageNotice.silent)

/-- The Step-2 tab (src/app.py:298): while `step1_result` is empty only the
precondition warning is shown, for every mode; otherwise the run stores a
non-empty generation outcome (src/app.py:451). -/
def runStage2 (s : PipelineState) (_mode : Stage2Mode) (outcome : Option Str) :
    PipelineState × StageNotice :=
  if s.step1_result = [] then (s, StageNotice.blocked)
  else
    match outcome with
    | some r =>
      if r ≠ [] then ({ s with step2_result := r }, StageNotice.success)
      else (s, StageNotice.silent)
    | none => (s, StageNotice.silent)

/-- The Step-3 tab (src/app.py:475): while `step2_result` is empty only the
precondition warning is shown, for every mode; otherwise the run stores a
non-empty generation outcome (src/app.py:589). -/
def runStage3 (s : PipelineState) (_mode : Stage3Mode) (outcome : Option Str) :
    PipelineState × StageNotice :=
  if s.step2_result = [] then (s, StageNotice.blocked)
  else
    match outcome with
    | some r =>
      if r ≠ [] then ({ s with step3_result := r }, StageNotice.success)
      else (s, StageNotice.silent)
    | none => (s, StageNotice.silent)

/-- The sidebar reset button (src/app.py:200): clear all three results. -/
def resetAll (_s : PipelineState) : PipelineState := initialState

/-- A user action on the pipeline, with the generation outcome the backend
returned for it (`none` models a raised generation exception). -/
inductive Action where
  | stage1 (outcome : Option Str)
  | stage2 (mode : Stage2Mode) (outcome : Option Str)
  | stage3 (mode : Stage3Mode) (outcome : Option Str)
  | reset

/-- The state after one user action. -/
def applyAction (s : PipelineState) (a : Action) : PipelineState :=
  match a with
  | Action.stage1 o => (runStage1 s o).1
  | Action.stage2 m o => (runStage2 s m o).1
  | Action.stage3 m o => (runStage3 s m o).1
  | Action.reset => resetAll s

/-- The state after a sequence of user actions. -/
def runActions (s : PipelineState) (acts : List Action) : PipelineState :=
  acts.foldl applyAction s

/-- The stage dependency invariant: a Step-2 result only ever exists on top
of a Step-1 result, and Step-3 on top of Step-2. -/
def depInvariant (s : PipelineState) : Prop :=
  (s.step2_result ≠ [] → s.step1_result ≠ []) ∧
    (s.step3_result ≠ [] → s.step2_result ≠ [])

/-- A backend whose bytes never parse as a document and whose uploads are
immediately ACTIVE. -/
def envBadDocx : Backend :=
  { parseDocx := fun _ => none
    upload := fun _ => Except.ok { id := 7, state := some FState.active }
    getFile := fun _ => Except.ok { id := 7, state := some FState.active } }

/-- A `.docx` upload whose bytes are not a valid document. -/
def badDocxFile : UploadedFile :=
  { name := S "report.docx", content := S "notadocx" }

/-- A backend whose files stay PROCESSING on every poll. -/
def envPending : Backend :=
  { parseDocx := fun _ => none
    upload := fun _ => Except.ok { id := 0, state := some FState.processing }
    getFile := fun _ => Except.ok { id := 0, state := some FState.processing } }

/-- A backend whose file turns ACTIVE exactly on the `maxWait`-th poll. -/
def envLateReady : Backend :=
  { parseDocx := fun _ => none
    upload := fun _ => Except.ok { id := 0, state := some FState.processing }
    getFile := fun k =>
      Except.ok
        { id := k
          state := if k < maxWait then some FState.processing else some FState.active } }

/-- A backend whose file turns ACTIVE on the first poll. -/
def envQuickReady : Backend :=
  { parseDocx := fun _ => none
    upload := fun _ => Except.ok { id := 0, state := some FState.processing }
    getFile := fun _ => Except.ok { id := 1, state := some FState.active } }

/-- A backend whose upload call raises an exception. -/
def envUploadRaises : Backend :=
  { parseDocx := fun _ => some []
    upload := fun _ => Except.error (S "network down")
    getFile := fun _ => Except.ok { id := 0, state := some FState.active } }

/-- The head surviving `dropWhile p` never satisfies `p`. -/
theorem head?_dropWhile_not {α} (p : α → Bool) (l : List α) (c : α)
    (h : (l.dropWhile p).head? = some c) : p c = false := by
  induction l with
  | nil => simp [List.dropWhile] at h
  | cons a t ih =>
    rw [List.dropWhile_cons] at h
    by_cases hp : p a
    · rw [if_pos hp] at h
      exact ih h
    · rw [if_neg hp] at h
      simp only [List.head?_cons, Option.some.injEq] at h
      simp only [← h]
      simpa using hp

/-- `dropWhile` keeps the last element whenever its result is non-empty. -/
theorem getLast?_dropWhile_ne_nil {α} (p : α → Bool) (l : List α)
    (h : l.dropWhile p ≠ []) : (l.dropWhile p).getLast? = l.getLast? := by
  induction l with
  | nil => simp [List.dropWhile] at h
  | cons a t ih =>
    rw [List.dropWhile_cons] at h ⊢
    by_cases hp : p a
    · rw [if_pos hp] at h ⊢
      rw [ih h]
      have ht : t ≠ [] := by
        intro he
        rw [he] at h
        simp [List.dropWhile] at h
      cases t with
      | nil => exact absurd rfl ht
      | cons b t2 => rw [List.getLast?_cons_cons]
    · rw [if_neg hp]

/-- A stripped string has no leading whitespace. -/
theorem trim_head (s : Str) (c : Char) (h : (trim s).head? = some c) :
    isWS c = false := by
  unfold trim trimRight at h
  rw [List.head?_reverse] at h
  have hne : (trimLeft s).reverse.dropWhile isWS ≠ [] := by
    intro he
    rw [he] at h
    simp at h
  rw [getLast?_dropWhile_ne_nil _ _ hne, List.getLast?_reverse] at h
  exact head?_dropWhile_not isWS s c h

/-- A stripped string has no trailing whitespace. -/
theorem trim_getLast (s : Str) (c : Char) (h : (trim s).getLast? = some c) :
    isWS c = false := by
  unfold trim trimRight at h
  rw [List.getLast?_reverse] at h
  exact head?_dropWhile_not isWS _ c h

/-- Claim C7: on a valid document, `extract_text_from_docx` returns exactly
the stripped texts of the paragraphs whose stripped text is non-empty, in
original order, joined by the single blank-line separator, and every
returned paragraph is non-empty with no leading or trailing whitespace. -/
theorem C7_extract_functional (paras : List Str) :
    extract_text_from_docx (some paras)
        = List.intercalate (S "\n\n") ((paras.map trim).filter (fun p => p ≠ []))
    ∧ (paras.map trim).filter (fun p => p ≠ [])
        = (paras.filter (fun p => trim p ≠ [])).map trim
    ∧ ((paras.map trim).filter (fun p => p ≠ [])).length
        = (paras.filter (fun p => trim p ≠ [])).length
    ∧ ∀ q ∈ (paras.map trim).filter (fun p => p ≠ []),
        q ≠ [] ∧ (∀ c, q.head? = some c → isWS c = false)
          ∧ (∀ c, q.getLast? = some c → isWS c = false) := by
  have hcomm : (paras.map trim).filter (fun p => p ≠ [])
      = (paras.filter (fun p => trim p ≠ [])).map trim := by
    rw [List.filter_map]
    rfl
  refine ⟨rfl, hcomm, by rw [hcomm, List.length_map], ?_⟩
  intro q hq
  rw [hcomm] at hq
  obtain ⟨p, hp, rfl⟩ := List.mem_map.mp hq
  refine ⟨?_, fun c hc => trim_head p c hc, fun c hc => trim_getLast p c hc⟩
  have hmem := List.of_mem_filter hp
  simpa using hmem

/-- Witness for C7 at a concrete input: three paragraphs, one of them
whitespace only, yield the two stripped texts joined by one blank line. -/
theorem C7_extract_functional_witness :
    extract_text_from_docx (some [S "  Hello ", S "   ", S "World"])
      = S "Hello\n\nWorld" := by
  rw [(C7_extract_functional [S "  Hello ", S "   ", S "World"]).1]
  decide

/-- Splitting a separator-free string is the identity (one piece). -/
theorem splitOn_no_sep (sep : Char) (x : Str) (h : sep ∉ x) :
    splitOn sep x = [x] := by
  induction x with
  | nil => rfl
  | cons c rest ih =>
    have hc : ¬ c = sep := fun he => h (he ▸ List.mem_cons_self c rest)
    have hrest : sep ∉ rest := fun hm => h (List.mem_cons_of_mem c hm)
    simp [splitOn, hc, ih hrest]

/-- Splitting past a separator-free chunk peels it off whole. -/
theorem splitOn_append (sep : Char) (x rest : Str) (h : sep ∉ x) :
    splitOn sep (x ++ sep :: rest) = x :: splitOn sep rest := by
  induction x with
  | nil => simp [splitOn]
  | cons c x2 ih =>
    have hc : ¬ c = sep := fun he => h (he ▸ List.mem_cons_self c x2)
    have hx2 : sep ∉ x2 := fun hm => h (List.mem_cons_of_mem c hm)
    simp [splitOn, hc, ih hx2]

/-- `splitOn` is the left inverse of `joinLines` on newline-free lines. -/
theorem splitOn_joinLines (lines : List Str) (hne : lines ≠ [])
    (h : ∀ l ∈ lines, ('\n' : Char) ∉ l) :
    splitOn '\n' (joinLines lines) = lines := by
  induction lines with
  | nil => exact absurd rfl hne
  | cons x rest ih =>
    cases rest with
    | nil => exact splitOn_no_sep '\n' x (h x (List.mem_cons_self x []))
    | cons y rest2 =>
      rw [joinLines, splitOn_append '\n' x _ (h x (List.mem_cons_self x _)),
        ih (by simp) (fun l hl => h l (List.mem_cons_of_mem x hl))]

/-- Claim C8: the renderer works line by line (rendering joined lines is the
per-line classification, with blank lines dropped), a stripped `"# ..."`
line is a level-1 heading of the remainder (`"## "` level 2, `"### "`
level 3), a stripped `"- ..."` or `"* ..."` line is a bullet of the
remainder, any other stripped non-blank line is a plain paragraph with the
literal `**` and `__` pairs removed, and in particular the line `"**bold**"`
renders as the plain paragraph `"bold"`. -/
theorem C8_render_classification :
    (∀ lines : List Str, lines ≠ [] → (∀ l ∈ lines, ('\n' : Char) ∉ l) →
        create_docx_from_markdown (joinLines lines) = lines.filterMap classifyLine)
    ∧ (∀ l : Str, trim l = [] → classifyLine l = none)
    ∧ (∀ t : Str, trim ('#' :: ' ' :: t) = '#' :: ' ' :: t →
        classifyLine ('#' :: ' ' :: t) = some (Block.heading 1 t))
    ∧ (∀ t : Str, trim ('#' :: '#' :: ' ' :: t) = '#' :: '#' :: ' ' :: t →
        classifyLine ('#' :: '#' :: ' ' :: t) = some (Block.heading 2 t))
    ∧ (∀ t : Str, trim ('#' :: '#' :: '#' :: ' ' :: t) = '#' :: '#' :: '#' :: ' ' :: t →
        classifyLine ('#' :: '#' :: '#' :: ' ' :: t) = some (Block.heading 3 t))
    ∧ (∀ t : Str, trim ('-' :: ' ' :: t) = '-' :: ' ' :: t →
        classifyLine ('-' :: ' ' :: t) = some (Block.bullet t))
    ∧ (∀ t : Str, trim ('*' :: ' ' :: t) = '*' :: ' ' :: t →
        classifyLine ('*' :: ' ' :: t) = some (Block.bullet t))
    ∧ (∀ l : Str, trim l = l → l ≠ [] →
        ['#', ' '].isPrefixOf l = false → ['#', '#', ' '].isPrefixOf l = false →
        ['#', '#', '#', ' '].isPrefixOf l = false →
        ['-', ' '].isPrefixOf l = false → ['*', ' '].isPrefixOf l = false →
        classifyLine l = some (Block.plain (removePair '_' '_' (removePair '*' '*' l))))
    ∧ classifyLine (S "**bold**") = some (Block.plain (S "bold")) := by
  refine ⟨?_, ?_, ?_, ?_, ?_, ?_, ?_, ?_, by decide⟩
  · intro lines hne h
    unfold create_docx_from_markdown
    rw [splitOn_joinLines lines hne h]
  · intro l h
    simp [classifyLine, h]
  · intro t ht
    simp [classifyLine, ht, List.isPrefixOf]
  · intro t ht
    simp [classifyLine, ht, List.isPrefixOf]
  · intro t ht
    simp [classifyLine, ht, List.isPrefixOf]
  · intro t ht
    simp [classifyLine, ht, List.isPrefixOf]
  · intro t ht
    simp [classifyLine, ht, List.isPrefixOf]
  · intro l ht hne h1 h2 h3 h4 h5
    simp [classifyLine, ht, hne, h1, h2, h3, h4, h5]

/-- Witness for C8 at a concrete input: the stripped line `"# Title"` is
classified as a level-1 heading with text `"Title"`. -/
theorem C8_render_classification_witness :
    classifyLine ('#' :: ' ' :: S "Title") = some (Block.heading 1 (S "Title")) :=
  C8_render_classification.2.2.1 (S "Title") (by decide)

/-- One action preserves the stage dependency invariant. -/
theorem applyAction_depInvariant (s : PipelineState) (a : Action)
    (h : depInvariant s) : depInvariant (applyAction s a) := by
  obtain ⟨h12, h23⟩ := h
  cases a with
  | stage1 o =>
    cases o with
    | none => exact ⟨h12, h23⟩
    | some r =>
      by_cases hr : r = []
      · have he : applyAction s (Action.stage1 (some r)) = s := by
          simp [applyAction, runStage1, hr]
        rw [he]; exact ⟨h12, h23⟩
      · have he : applyAction s (Action.stage1 (some r)) = { s with step1_result := r } := by
          simp [applyAction, runStage1, hr]
        rw [he]; exact ⟨fun _ => hr, h23⟩
  | stage2 m o =>
    by_cases h1 : s.step1_result = []
    · have he : applyAction s (Action.stage2 m o) = s := by
        simp [applyAction, runStage2, h1]
      rw [he]; exact ⟨h12, h23⟩
    · cases o with
      | none =>
        have he : applyAction s (Action.stage2 m none) = s := by
          simp [applyAction, runStage2, h1]
        rw [he]; exact ⟨h12, h23⟩
      | some r =>
        by_cases hr : r = []
        · have he : applyAction s (Action.stage2 m (some r)) = s := by
            simp [applyAction, runStage2, h1, hr]
          rw [he]; exact ⟨h12, h23⟩
        · have he : applyAction s (Action.stage2 m (some r))
              = { s with step2_result := r } := by
            simp [applyAction, runStage2, h1, hr]
          rw [he]; exact ⟨fun _ => h1, fun _ => hr⟩
  | stage3 m o =>
    by_cases h2 : s.step2_result = []
    · have he : applyAction s (Action.stage3 m o) = s := by
        simp [applyAction, runStage3, h2]
      rw [he]; exact ⟨h12, h23⟩
    · cases o with
      | none =>
        have he : applyAction s (Action.stage3 m none) = s := by
          simp [applyAction, runStage3, h2]
        rw [he]; exact ⟨h12, h23⟩
      | some r =>
        by_cases hr : r = []
        · have he : applyAction s (Action.stage3 m (some r)) = s := by
            simp [applyAction, runStage3, h2, hr]
          rw [he]; exact ⟨h12, h23⟩
        · have he : applyAction s (Action.stage3 m (some r))
              = { s with step3_result := r } := by
            simp [applyAction, runStage3, h2, hr]
          rw [he]; exact ⟨h12, fun _ => h2⟩
  | reset =>
    exact ⟨fun h => absurd rfl h, fun h => absurd rfl h⟩

/-- Claim C5: Step 2 is blocked with the precondition notice, for every mode,
whenever the Step-1 result is absent, and Step 3 likewise when the Step-2
result is absent; consequently, in every state reachable from the initial
one a Step-2 result only ever exists together with a Step-1 result, and a
Step-3 result with a Step-2 result. -/
theorem C5_stage_gating :
    (∀ (s : PipelineState) (m : Stage2Mode) (o : Option Str),
        s.step1_result = [] → runStage2 s m o = (s, StageNotice.blocked))
    ∧ (∀ (s : PipelineState) (m : Stage3Mode) (o : Option Str),
        s.step2_result = [] → runStage3 s m o = (s, StageNotice.blocked))
    ∧ (∀ acts : List Action, depInvariant (runActions initialState acts)) := by
  refine ⟨fun s m o h => by simp [runStage2, h],
    fun s m o h => by simp [runStage3, h], fun acts => ?_⟩
  have general : ∀ (acts : List Action) (s : PipelineState),
      depInvariant s → depInvariant (runActions s acts) := by
    intro acts
    induction acts with
    | nil => exact fun s h => h
    | cons a rest ih =>
      intro s h
      exact ih (applyAction s a) (applyAction_depInvariant s a h)
  exact general acts initialState (by simp [initialState, depInvariant])

/-- Witness for C5 at a concrete input: in the initial state a Step-2 run in
Normal mode with a successful generation outcome is blocked unchanged. -/
theorem C5_stage_gating_witness :
    runStage2 initialState Stage2Mode.normal (some (S "report")) =
      (initialState, StageNotice.blocked) :=
  C5_stage_gating.1 initialState Stage2Mode.normal (some (S "report")) rfl

/-- Claim C6: a run of stage n modifies at most stage n's result — on a
non-empty generation outcome it replaces exactly its own stage's result
(the other two components are untouched, so re-running Step 1 leaves
existing Step-2/Step-3 results in place), on a failed generation it stores
nothing, and for any outcome whatsoever the other two stage results are
unchanged. -/
theorem C6_stage_frame :
    (∀ (s : PipelineState) (r : Str), r ≠ [] →
        runStage1 s (some r) = ({ s with step1_result := r }, StageNotice.success))
    ∧ (∀ (s : PipelineState) (m : Stage2Mode) (r : Str),
        s.step1_result ≠ [] → r ≠ [] →
        runStage2 s m (some r) = ({ s with step2_result := r }, StageNotice.success))
    ∧ (∀ (s : PipelineState) (m : Stage3Mode) (r : Str),
        s.step2_result ≠ [] → r ≠ [] →
        runStage3 s m (some r) = ({ s with step3_result := r }, StageNotice.success))
    ∧ (∀ s : PipelineState, runStage1 s none = (s, StageNotice.silent))
    ∧ (∀ (s : PipelineState) (m : Stage2Mode), s.step1_result ≠ [] →
        runStage2 s m none = (s, StageNotice.silent))
    ∧ (∀ (s : PipelineState) (m : Stage3Mode), s.step2_result ≠ [] →
        runStage3 s m none = (s, StageNotice.silent))
    ∧ (∀ (s : PipelineState) (o : Option Str),
        (runStage1 s o).1.step2_result = s.step2_result
          ∧ (runStage1 s o).1.step3_result = s.step3_result)
    ∧ (∀ (s : PipelineState) (m : Stage2Mode) (o : Option Str),
        (runStage2 s m o).1.step1_result = s.step1_result
          ∧ (runStage2 s m o).1.step3_result = s.step3_result)
    ∧ (∀ (s : PipelineState) (m : Stage3Mode) (o : Option Str),
        (runStage3 s m o).1.step1_result = s.step1_result
          ∧ (runStage3 s m o).1.step2_result = s.step2_result) := by
  refine ⟨fun s r hr => by simp [runStage1, hr],
    fun s m r h1 hr => by simp [runStage2, h1, hr],
    fun s m r h2 hr => by simp [runStage3, h2, hr],
    fun s => rfl,
    fun s m h1 => by simp [runStage2, h1],
    fun s m h2 => by simp [runStage3, h2],
    fun s o => ?_, fun s m o => ?_, fun s m o => ?_⟩
  · cases o with
    | none => exact ⟨rfl, rfl⟩
    | some r => by_cases hr : r = [] <;> simp [runStage1, hr]
  · by_cases h1 : s.step1_result = []
    · simp [runStage2, h1]
    · cases o with
      | none => simp [runStage2, h1]
      | some r => by_cases hr : r = [] <;> simp [runStage2, h1, hr]
  · by_cases h2 : s.step2_result = []
    · simp [runStage3, h2]
    · cases o with
      | none => simp [runStage3, h2]
      | some r => by_cases hr : r = [] <;> simp [runStage3, h2, hr]

/-- Witness for C6 at a concrete input: a successful Step-2 run replaces
only the Step-2 result, leaving a pre-existing Step-3 result in place. -/
theorem C6_stage_frame_witness :
    runStage2 { step1_result := S "one", step2_result := S "old", step3_result := S "three" }
        Stage2Mode.normal (some (S "new")) =
      ({ step1_result := S "one", step2_result := S "new", step3_result := S "three" },
        StageNotice.success) :=
  C6_stage_frame.2.1
    { step1_result := S "one", step2_result := S "old", step3_result := S "three" }
    Stage2Mode.normal (S "new") (by decide) (by decide)

/-- Claim C9: the content list of every generation request has the prompt
text first and then the asset references in exactly the caller's order, and
the request carries the fixed sampling temperature 0.7. -/
theorem C9_request_shape (model_name prompt : Str) (files : List FileObj) :
    (generate_request model_name prompt (some files)).contents.head?
        = some (ContentPart.text prompt)
    ∧ (generate_request model_name prompt (some files)).contents.tail
        = files.map ContentPart.file
    ∧ (generate_request model_name prompt (some files)).temperature = 7 / 10
    ∧ generate_request model_name prompt none
        = generate_request model_name prompt (some []) := by
  cases files <;> simp [generate_request]

/-- Claim C10: a backend call that succeeds with an empty text stores
nothing — for each stage the run on outcome `some ""` equals the run on a
failed generation: the state (in particular the prior result of that stage)
is unchanged and no success is reported. -/
theorem C10_empty_generation :
    (∀ s : PipelineState, runStage1 s (some []) = runStage1 s none)
    ∧ (∀ (s : PipelineState) (m : Stage2Mode),
        runStage2 s m (some []) = runStage2 s m none)
    ∧ (∀ (s : PipelineState) (m : Stage3Mode),
        runStage3 s m (some []) = runStage3 s m none)
    ∧ (∀ s : PipelineState, runStage1 s (some []) = (s, StageNotice.silent))
    ∧ (∀ (s : PipelineState) (m : Stage2Mode), s.step1_result ≠ [] →
        runStage2 s m (some []) = (s, StageNotice.silent))
    ∧ (∀ (s : PipelineState) (m : Stage3Mode), s.step2_result ≠ [] →
        runStage3 s m (some []) = (s, StageNotice.silent)) := by
  refine ⟨fun s => rfl, fun s m => ?_, fun s m => ?_, fun s => rfl,
    fun s m h1 => by simp [runStage2, h1],
    fun s m h2 => by simp [runStage3, h2]⟩
  · by_cases h1 : s.step1_result = [] <;> simp [runStage2, h1]
  · by_cases h2 : s.step2_result = [] <;> simp [runStage3, h2]

/-- Witness for C10 at a concrete input: with Step 1 present, a Step-2 run
whose generation returned the empty string leaves the state unchanged and
shows no success banner. -/
theorem C10_empty_generation_witness :
    runStage2 { step1_result := S "one", step2_result := S "old", step3_result := [] }
        Stage2Mode.noPage (some []) =
      ({ step1_result := S "one", step2_result := S "old", step3_result := [] },
        StageNotice.silent) :=
  C10_empty_generation.2.2.2.2.1
    { step1_result := S "one", step2_result := S "old", step3_result := [] }
    Stage2Mode.noPage (by decide)

/-- Once the state is non-PROCESSING, or the ceiling is reached, the loop
exits at once with the current file object and elapsed time. -/
theorem pollLoopFuel_exit (env : Backend) (n : Nat) (fm : FileObj) (m : Nat)
    (hstop : fm.state ≠ some FState.processing ∨ m = maxWait) :
    pollLoopFuel env n fm m = Except.ok (fm, m) := by
  cases n with
  | zero => rfl
  | succ n2 =>
    have hc : ¬ (fm.state = some FState.processing ∧ m < maxWait) := by
      rcases hstop with h | h
      · exact fun hc => h hc.1
      · exact fun hc => absurd hc.2 (by omega)
    rw [pollLoopFuel, if_neg hc]

/-- With an always-PROCESSING backend the loop runs all the way to the
`maxWait` ceiling. -/
theorem pollLoopFuel_pending (env : Backend)
    (hpoll : ∀ k, ∃ fk, env.getFile k = Except.ok fk
      ∧ fk.state = some FState.processing) :
    ∀ (fuel e : Nat) (f : FileObj), fuel = maxWait - e → e ≤ maxWait →
      f.state = some FState.processing →
      ∃ fe, pollLoopFuel env fuel f e = Except.ok (fe, maxWait)
        ∧ fe.state = some FState.processing := by
  intro fuel
  induction fuel with
  | zero =>
    intro e f hfe hle hf
    have he : e = maxWait := by omega
    subst he
    exact ⟨f, rfl, hf⟩
  | succ n ih =>
    intro e f hfe hle hf
    have hlt : e < maxWait := by omega
    obtain ⟨fk, hk, hks⟩ := hpoll (e + 1)
    have hstep : pollLoopFuel env (n + 1) f e = pollLoopFuel env n fk (e + 1) := by
      rw [pollLoopFuel, if_pos ⟨hf, hlt⟩, hk]
    rw [hstep]
    exact ih (e + 1) fk (by omega) (by omega) hks

/-- The elapsed count the loop ever reports is bounded by fuel. -/
theorem pollLoopFuel_le (env : Backend) :
    ∀ (fuel : Nat) (f : FileObj) (e : Nat),
      (∀ f2 e2, pollLoopFuel env fuel f e = Except.ok (f2, e2) → e2 ≤ e + fuel)
      ∧ (∀ s k, pollLoopFuel env fuel f e = Except.error (s, k) → k ≤ e + fuel) := by
  intro fuel
  induction fuel with
  | zero =>
    intro f e
    constructor
    · intro f2 e2 h
      simp only [pollLoopFuel, Except.ok.injEq, Prod.mk.injEq] at h
      omega
    · intro s k h
      simp [pollLoopFuel] at h
  | succ n ih =>
    intro f e
    constructor
    · intro f2 e2 h
      rw [pollLoopFuel] at h
      by_cases hc : f.state = some FState.processing ∧ e < maxWait
      · rw [if_pos hc] at h
        cases hg : env.getFile (e + 1) with
        | error er =>
          rw [hg] at h
          simp at h
        | ok f3 =>
          rw [hg] at h
          have := (ih f3 (e + 1)).1 f2 e2 h
          omega
      · rw [if_neg hc] at h
        simp only [Except.ok.injEq, Prod.mk.injEq] at h
        omega
    · intro s k h
      rw [pollLoopFuel] at h
      by_cases hc : f.state = some FState.processing ∧ e < maxWait
      · rw [if_pos hc] at h
        cases hg : env.getFile (e + 1) with
        | error er =>
          rw [hg] at h
          simp only [Except.error.injEq, Prod.mk.injEq] at h
          omega
        | ok f3 =>
          rw [hg] at h
          have := (ih f3 (e + 1)).2 s k h
          omega
      · rw [if_neg hc] at h
        simp at h

/-- A run of the loop that stays PROCESSING through poll `m - 1` and gets
its terminal answer (or the ceiling) at poll `m` ends with poll `m`'s file
object and `m` elapsed seconds. -/
theorem pollLoopFuel_run (env : Backend) (m : Nat) (fm : FileObj)
    (hm : m ≤ maxWait) (hat : env.getFile m = Except.ok fm)
    (hstop : fm.state ≠ some FState.processing ∨ m = maxWait) :
    ∀ (fuel e : Nat) (f : FileObj), fuel = maxWait - e → e < m →
      f.state = some FState.processing →
      (∀ k, e < k → k < m → ∃ fk, env.getFile k = Except.ok fk
        ∧ fk.state = some FState.processing) →
      pollLoopFuel env fuel f e = Except.ok (fm, m) := by
  intro fuel
  induction fuel with
  | zero =>
    intro e f hfe he hf hall
    omega
  | succ n ih =>
    intro e f hfe he hf hall
    have hlt : e < maxWait := by omega
    rw [pollLoopFuel, if_pos ⟨hf, hlt⟩]
    by_cases hem : e + 1 = m
    · subst hem
      rw [hat]
      exact pollLoopFuel_exit env n fm (e + 1) hstop
    · obtain ⟨fk, hk, hks⟩ := hall (e + 1) (by omega) (by omega)
      rw [hk]
      exact ih (e + 1) fk (by omega) (by omega) hks
        (fun k h1 h2 => hall k (by omega) h2)

/-- The upload-and-poll phase after a completed (exception-free) poll loop. -/
theorem ingest_prepared_polled (env : Backend) (c d : Str) (b : Bool)
    (f0 f1 : FileObj) (e : Nat)
    (hu : env.upload (c, d) = Except.ok f0)
    (hl : pollLoop env f0 0 = Except.ok (f1, e)) :
    ingest_prepared env c d b =
      if f1.state = none ∨ f1.state = some FState.failed ∨ maxWait ≤ e then
        { result := none, uploads := [(c, d)], pollCalls := e, tempsLeaked := 0,
          extractionFailed := b, errNotice := true }
      else
        { result := some f1, uploads := [(c, d)], pollCalls := e, tempsLeaked := 0,
          extractionFailed := b, errNotice := false } := by
  simp only [ingest_prepared, hu, hl]

/-- The upload-and-poll phase when the upload call raises. -/
theorem ingest_prepared_upload_error (env : Backend) (c d : Str) (b : Bool)
    (e : Str) (hu : env.upload (c, d) = Except.error e) :
    ingest_prepared env c d b =
      { result := none, uploads := [(c, d)], pollCalls := 0, tempsLeaked := 1,
        extractionFailed := b, errNotice := true } := by
  simp only [ingest_prepared, hu]

/-- The upload-and-poll phase when a poll raises. -/
theorem ingest_prepared_poll_error (env : Backend) (c d : Str) (b : Bool)
    (f0 : FileObj) (s : Str) (k : Nat)
    (hu : env.upload (c, d) = Except.ok f0)
    (hl : pollLoop env f0 0 = Except.error (s, k)) :
    ingest_prepared env c d b =
      { result := none, uploads := [(c, d)], pollCalls := k, tempsLeaked := 1,
        extractionFailed := b, errNotice := true } := by
  simp only [ingest_prepared, hu, hl]

/-- The upload-and-poll phase always records exactly one upload call, with
the prepared content and display name, and passes the extraction flag
through, whatever the backend does. -/
theorem ingest_prepared_uploads (env : Backend) (c d : Str) (b : Bool) :
    (ingest_prepared env c d b).uploads = [(c, d)]
    ∧ (ingest_prepared env c d b).extractionFailed = b := by
  cases hu : env.upload (c, d) with
  | error e =>
    rw [ingest_prepared_upload_error env c d b e hu]
    exact ⟨rfl, rfl⟩
  | ok f0 =>
    cases hl : pollLoop env f0 0 with
    | error pe =>
      rw [ingest_prepared_poll_error env c d b f0 pe.1 pe.2 hu hl]
      exact ⟨rfl, rfl⟩
    | ok q =>
      rw [ingest_prepared_polled env c d b f0 q.1 q.2 hu hl]
      by_cases hc : q.1.state = none ∨ q.1.state = some FState.failed ∨ maxWait ≤ q.2
      · rw [if_pos hc]
        exact ⟨rfl, rfl⟩
      · rw [if_neg hc]
        exact ⟨rfl, rfl⟩

/-- Every `process_uploaded_file` call is the upload-and-poll phase on the
prepared content: the extracted text under the derived name for `.docx`
files, the raw bytes under the original name otherwise. -/
theorem process_eq_prepared (env : Backend) (f : UploadedFile) :
    (fileSuffix f.name = S ".docx" ∧
        process_uploaded_file env f
          = ingest_prepared env (extract_text_from_docx (env.parseDocx f.content))
              (f.name ++ S ".txt") (env.parseDocx f.content).isNone)
    ∨ (fileSuffix f.name ≠ S ".docx" ∧
        process_uploaded_file env f = ingest_prepared env f.content f.name false) := by
  by_cases h : fileSuffix f.name = S ".docx"
  · exact Or.inl ⟨h, by simp [process_uploaded_file, h]⟩
  · exact Or.inr ⟨h, by simp [process_uploaded_file, h]⟩

/-- The poll count of the phase never exceeds the ceiling. -/
theorem ingest_prepared_pollCalls_le (env : Backend) (c d : Str) (b : Bool) :
    (ingest_prepared env c d b).pollCalls ≤ maxWait := by
  cases hu : env.upload (c, d) with
  | error e =>
    rw [ingest_prepared_upload_error env c d b e hu]
    exact Nat.zero_le _
  | ok f0 =>
    cases hl : pollLoop env f0 0 with
    | error pe =>
      rw [ingest_prepared_poll_error env c d b f0 pe.1 pe.2 hu hl]
      have hb := (pollLoopFuel_le env (maxWait - 0) f0 0).2 pe.1 pe.2 hl
      simpa using hb
    | ok q =>
      rw [ingest_prepared_polled env c d b f0 q.1 q.2 hu hl]
      have hb := (pollLoopFuel_le env (maxWait - 0) f0 0).1 q.1 q.2 hl
      by_cases hc : q.1.state = none ∨ q.1.state = some FState.failed ∨ maxWait ≤ q.2
      · rw [if_pos hc]
        simpa using hb
      · rw [if_neg hc]
        simpa using hb

/-- The poll count of any ingestion call never exceeds the ceiling. -/
theorem process_pollCalls_le (env : Backend) (f : UploadedFile) :
    (process_uploaded_file env f).pollCalls ≤ maxWait := by
  rcases process_eq_prepared env f with ⟨_, hpe⟩ | ⟨_, hpe⟩ <;> rw [hpe] <;>
    exact ingest_prepared_pollCalls_le env _ _ _

/-- Claim C2: against a backend whose readiness state answers PROCESSING on
every poll, ingestion terminates after exactly `maxWait` (= 60) one-second
poll iterations — 60 seconds of wall-clock sleeping — reports the failure
and yields no asset reference; and no ingestion call against any backend
ever makes more than `maxWait` poll iterations. -/
theorem C2_pending_timeout (env : Backend) (f : UploadedFile) (f0 : FileObj)
    (hup : ∀ a, env.upload a = Except.ok f0)
    (h0 : f0.state = some FState.processing)
    (hpoll : ∀ k, ∃ fk, env.getFile k = Except.ok fk
      ∧ fk.state = some FState.processing) :
    (process_uploaded_file env f).pollCalls = maxWait
    ∧ (process_uploaded_file env f).result = none
    ∧ (process_uploaded_file env f).errNotice = true
    ∧ ∀ (env2 : Backend) (f2 : UploadedFile),
        (process_uploaded_file env2 f2).pollCalls ≤ maxWait := by
  obtain ⟨fe, hfe, hfes⟩ :=
    pollLoopFuel_pending env hpoll (maxWait - 0) 0 f0 rfl (Nat.zero_le _) h0
  have hloop : pollLoop env f0 0 = Except.ok (fe, maxWait) := hfe
  have hcond : fe.state = none ∨ fe.state = some FState.failed ∨ maxWait ≤ maxWait :=
    Or.inr (Or.inr (le_refl maxWait))
  have hrec : ∀ c d b, ingest_prepared env c d b =
      { result := none, uploads := [(c, d)], pollCalls := maxWait, tempsLeaked := 0,
        extractionFailed := b, errNotice := true } := by
    intro c d b
    rw [ingest_prepared_polled env c d b f0 fe maxWait (hup _) hloop, if_pos hcond]
  rcases process_eq_prepared env f with ⟨_, hpe⟩ | ⟨_, hpe⟩ <;>
    rw [hpe, hrec] <;>
    exact ⟨rfl, rfl, rfl, fun env2 f2 => process_pollCalls_le env2 f2⟩

/-- Witness for C2 at a concrete input: an always-PROCESSING backend makes
the ingestion of a video file poll 60 times and return no reference. -/
theorem C2_pending_timeout_witness :
    (process_uploaded_file envPending
        { name := S "clip.mp4", content := S "vid" }).pollCalls = maxWait
    ∧ (process_uploaded_file envPending
        { name := S "clip.mp4", content := S "vid" }).result = none :=
  ⟨(C2_pending_timeout envPending { name := S "clip.mp4", content := S "vid" }
      { id := 0, state := some FState.processing } (fun _ => rfl) rfl
      (fun _ => ⟨{ id := 0, state := some FState.processing }, rfl, rfl⟩)).1,
    (C2_pending_timeout envPending { name := S "clip.mp4", content := S "vid" }
      { id := 0, state := some FState.processing } (fun _ => rfl) rfl
      (fun _ => ⟨{ id := 0, state := some FState.processing }, rfl, rfl⟩)).2.1⟩

/-- Counterexample to claim C3 as stated: against a backend whose file
becomes Ready exactly when the 60-second ceiling is hit (PROCESSING on
polls 1..59, ACTIVE on poll 60), the code reports the timeout failure and
returns no asset reference instead of the Ready reference, because the
`elapsed >= max_wait` test fires even though the final state is ACTIVE. -/
theorem C3_counterexample :
    envLateReady.getFile maxWait
        = Except.ok { id := maxWait, state := some FState.active }
    ∧ (process_uploaded_file envLateReady
        { name := S "doc.pdf", content := S "p" }).result = none
    ∧ (process_uploaded_file envLateReady
        { name := S "doc.pdf", content := S "p" }).errNotice = true :=
  ⟨rfl, rfl, rfl⟩

/-- Claim C3 (amended): ingestion classifies its outcome by the readiness
state reached during polling, with a strict boundary: when the remote state
leaves PROCESSING at poll `m` with answer ACTIVE, the Ready reference is
returned only for `m` strictly below the 60-second ceiling — at `m = 60`
the timeout failure is reported although the state is Ready — and when the
answer at poll `m` is FAILED the failure is reported. -/
theorem C3_readiness_classification (env : Backend) (f : UploadedFile)
    (f0 fm : FileObj) (m : Nat)
    (hup : ∀ a, env.upload a = Except.ok f0)
    (h0 : f0.state = some FState.processing)
    (hm1 : 1 ≤ m) (hm : m ≤ maxWait)
    (hbefore : ∀ k, 1 ≤ k → k < m → ∃ fk, env.getFile k = Except.ok fk
      ∧ fk.state = some FState.processing)
    (hat : env.getFile m = Except.ok fm) :
    (fm.state = some FState.active →
        (process_uploaded_file env f).result
          = if m < maxWait then some fm else none)
    ∧ (fm.state = some FState.failed →
        (process_uploaded_file env f).result = none) := by
  constructor
  · intro hstate
    have hloop : pollLoop env f0 0 = Except.ok (fm, m) :=
      pollLoopFuel_run env m fm hm hat (Or.inl (by rw [hstate]; simp))
        (maxWait - 0) 0 f0 rfl (by omega) h0
        (fun k h1 h2 => hbefore k (by omega) h2)
    have hres : ∀ c d b, (ingest_prepared env c d b).result
        = if m < maxWait then some fm else none := by
      intro c d b
      rw [ingest_prepared_polled env c d b f0 fm m (hup _) hloop]
      by_cases hmw : m < maxWait
      · have hc : ¬ (fm.state = none ∨ fm.state = some FState.failed ∨ maxWait ≤ m) := by
          rw [hstate]
          rintro (h | h | h)
          · exact Option.noConfusion h
          · simp at h
          · omega
        rw [if_neg hc, if_pos hmw]
      · have hc : fm.state = none ∨ fm.state = some FState.failed ∨ maxWait ≤ m :=
          Or.inr (Or.inr (by omega))
        rw [if_pos hc, if_neg hmw]
    rcases process_eq_prepared env f with ⟨_, hpe⟩ | ⟨_, hpe⟩ <;> rw [hpe, hres]
  · intro hstate
    have hloop : pollLoop env f0 0 = Except.ok (fm, m) :=
      pollLoopFuel_run env m fm hm hat (Or.inl (by rw [hstate]; simp))
        (maxWait - 0) 0 f0 rfl (by omega) h0
        (fun k h1 h2 => hbefore k (by omega) h2)
    have hres : ∀ c d b, (ingest_prepared env c d b).result = none := by
      intro c d b
      rw [ingest_prepared_polled env c d b f0 fm m (hup _) hloop,
        if_pos (Or.inr (Or.inl hstate))]
    rcases process_eq_prepared env f with ⟨_, hpe⟩ | ⟨_, hpe⟩ <;> rw [hpe, hres]

/-- Witness for C3 at a concrete input: a file that turns ACTIVE on the
first poll is returned as the Ready reference. -/
theorem C3_readiness_witness :
    (process_uploaded_file envQuickReady
        { name := S "pic.png", content := S "img" }).result
      = if 1 < maxWait then some { id := 1, state := some FState.active } else none :=
  (C3_readiness_classification envQuickReady { name := S "pic.png", content := S "img" }
      { id := 0, state := some FState.processing }
      { id := 1, state := some FState.active } 1 (fun _ => rfl) rfl
      (le_refl 1) (by decide)
      (fun k h1 h2 => absurd h2 (Nat.not_lt.mpr h1)) rfl).1 rfl

/-- Counterexample to claim C1 as stated: for a `.docx` upload whose bytes
are not a valid structured document, extraction fails, yet ingestion does
not abort — the upload call is still made (with empty content under the
derived display name) and a Ready asset reference is returned. -/
theorem C1_counterexample :
    (process_uploaded_file envBadDocx badDocxFile).extractionFailed = true
    ∧ (process_uploaded_file envBadDocx badDocxFile).uploads
        = [([], S "report.docx.txt")]
    ∧ (process_uploaded_file envBadDocx badDocxFile).result
        = some { id := 7, state := some FState.active } :=
  ⟨rfl, rfl, rfl⟩

/-- Claim C1 (amended): for every `.docx` asset whose bytes fail extraction,
the extractor reports the failure and yields empty text, and ingestion does
NOT abort: exactly one upload call is still made, carrying empty content
under the derived display name `name + ".txt"`; other assets of a batch are
processed regardless, successes collected in order. -/
theorem C1_extraction_failure (env : Backend) (f : UploadedFile)
    (hdocx : fileSuffix f.name = S ".docx")
    (hbad : env.parseDocx f.content = none) :
    (process_uploaded_file env f).extractionFailed = true
    ∧ (process_uploaded_file env f).uploads = [([], f.name ++ S ".txt")]
    ∧ ∀ (pre post : List (Backend × UploadedFile)) (it : Backend × UploadedFile),
        ingest_batch (pre ++ it :: post)
          = ingest_batch pre ++ (process_uploaded_file it.1 it.2).result.toList
              ++ ingest_batch post := by
  have hpe : process_uploaded_file env f
      = ingest_prepared env [] (f.name ++ S ".txt") true := by
    simp [process_uploaded_file, hdocx, hbad, extract_text_from_docx]
  refine ⟨?_, ?_, ?_⟩
  · rw [hpe]
    exact (ingest_prepared_uploads env [] (f.name ++ S ".txt") true).2
  · rw [hpe]
    exact (ingest_prepared_uploads env [] (f.name ++ S ".txt") true).1
  · intro pre post it
    simp only [ingest_batch, List.filterMap_append, List.filterMap_cons]
    cases (process_uploaded_file it.1 it.2).result <;> simp

/-- Witness for C1 (amended) at a concrete input: the invalid docx upload
still produces exactly one upload call, with empty content and the derived
display name. -/
theorem C1_extraction_failure_witness :
    (process_uploaded_file envBadDocx badDocxFile).uploads
      = [([], badDocxFile.name ++ S ".txt")] :=
  (C1_extraction_failure envBadDocx badDocxFile (by decide) rfl).2.1

/-- Counterexample to claim C4 as stated: when the upload call raises an
exception, the handler reports the error but does not delete the scoped
temporary file — one temp file outlives the call. -/
theorem C4_counterexample :
    (process_uploaded_file envUploadRaises
        { name := S "a.txt", content := S "x" }).tempsLeaked = 1
    ∧ (process_uploaded_file envUploadRaises
        { name := S "a.txt", content := S "x" }).errNotice = true :=
  ⟨rfl, rfl⟩

/-- Claim C4 (amended): the scoped temporary file is deleted before
returning on every exception-free path (success, extraction failure,
readiness failure and timeout), but when the upload call or a readiness
poll raises an exception the temporary file is NOT deleted and outlives
the call. -/
theorem C4_temp_release :
    (∀ (env : Backend) (f : UploadedFile) (f0 : FileObj),
        (∀ a, env.upload a = Except.ok f0) →
        (∃ p, pollLoop env f0 0 = Except.ok p) →
        (process_uploaded_file env f).tempsLeaked = 0)
    ∧ (∀ (env : Backend) (f : UploadedFile) (e : Str),
        (∀ a, env.upload a = Except.error e) →
        (process_uploaded_file env f).tempsLeaked = 1)
    ∧ (∀ (env : Backend) (f : UploadedFile) (f0 : FileObj) (s : Str) (k : Nat),
        (∀ a, env.upload a = Except.ok f0) →
        pollLoop env f0 0 = Except.error (s, k) →
        (process_uploaded_file env f).tempsLeaked = 1) := by
  refine ⟨?_, ?_, ?_⟩
  · intro env f f0 hup hex
    obtain ⟨⟨f1, e⟩, hl⟩ := hex
    have h0 : ∀ c d b, (ingest_prepared env c d b).tempsLeaked = 0 := by
      intro c d b
      rw [ingest_prepared_polled env c d b f0 f1 e (hup _) hl]
      by_cases hc : f1.state = none ∨ f1.state = some FState.failed ∨ maxWait ≤ e
      · rw [if_pos hc]
      · rw [if_neg hc]
    rcases process_eq_prepared env f with ⟨_, hpe⟩ | ⟨_, hpe⟩ <;> rw [hpe, h0]
  · intro env f e hup
    have h1 : ∀ c d b, (ingest_prepared env c d b).tempsLeaked = 1 := by
      intro c d b
      rw [ingest_prepared_upload_error env c d b e (hup _)]
    rcases process_eq_prepared env f with ⟨_, hpe⟩ | ⟨_, hpe⟩ <;> rw [hpe, h1]
  · intro env f f0 s k hup hl
    have h1 : ∀ c d b, (ingest_prepared env c d b).tempsLeaked = 1 := by
      intro c d b
      rw [ingest_prepared_poll_error env c d b f0 s k (hup _) hl]
    rcases process_eq_prepared env f with ⟨_, hpe⟩ | ⟨_, hpe⟩ <;> rw [hpe, h1]

/-- Witness for C4 (amended) at a concrete input: an exception-free
ingestion (upload accepted, first poll ACTIVE) leaves no temporary file. -/
theorem C4_temp_release_witness :
    (process_uploaded_file envQuickReady
        { name := S "pic.png", content := S "img" }).tempsLeaked = 0 :=
  C4_temp_release.1 envQuickReady { name := S "pic.png", content := S "img" }
    { id := 0, state := some FState.processing } (fun _ => rfl)
    ⟨({ id := 1, state := some FState.active }, 1), rfl⟩

end LP
